import Mathlib

/-!
Verification of the council orchestration engine of `openjny/copilot-council`
(package `council` as concatenated into `src/internal/copilot/client.go`,
together with the transport wrapper of package `copilot`).

The Go code is embedded shallowly:

* Go strings are modelled at the rune level as `List Char` (with `String`
  wrappers at the API boundary); the helpers `goContains`, `goTrimSpace` and
  `goSplitLines` embed `strings.Contains`, `strings.TrimSpace` and
  `strings.Split(s, "\n")` for the character set these inputs use.
* `time.Duration` values are modelled as `Nat` (a tick count).  A call's
  duration is data supplied by the transport oracle; elapsed times measured
  by the orchestrator with `time.Since` are recovered from the oracle's
  durations following the code's control flow (sequential awaited calls add
  their durations; a stage that makes no call elapses zero ticks).
* Go `error` values are modelled as `Option String` carrying the message.
* The Copilot SDK transport (session create / send / wait-or-timeout inside
  `AskMultipleModels` and `AskSingleModel`) is abstracted as a `CallOutcome`
  oracle: for each call the environment decides whether session creation
  failed, sending failed, the call completed with some content, or the
  per-call deadline fired first.  The four constructors are exactly the four
  exits of the Go call body.
-/

namespace CopilotCouncil

/-! ## Data model (Go structs of packages `copilot` and `council`) -/

/-- Go `copilot.Response` (client.go lines 70-75): one Stage-1 call result.
`Error : Option String` models the Go `error` field by its message. -/
structure Response where
  Model : String
  Content : String
  Error : Option String
  Duration : Nat
deriving DecidableEq, Inhabited, Repr

/-- Go `council.Ranking` (client.go lines 386-390). -/
structure Ranking where
  ResponseIndex : Nat
  Rank : Nat
  Reasoning : String
deriving DecidableEq, Inhabited, Repr

/-- Go `council.Review` (client.go lines 378-383). -/
structure Review where
  ReviewerModel : String
  Rankings : List Ranking
  Duration : Nat
  Error : Option String
deriving DecidableEq, Inhabited, Repr

/-- Go `council.Config` (client.go lines 369-375). -/
structure Config where
  Models : List String
  Aggregator : String
  Timeout : Nat
  Verbose : Bool
  OriginalQ : String
deriving Inhabited, Repr

/-- Go `council.Result` (client.go lines 393-403).  The Go field
`ReviewPrompts map[string]string` is modelled as the association list of
insertions the code performs, in loop order. -/
structure Result where
  ModelResponses : List Response
  Reviews : List Review
  AggregatedResponse : String
  AggregationDuration : Nat
  ReviewDuration : Nat
  InitialPrompt : String
  ReviewPrompts : List (String × String)
  AggregationPrompt : String
  Error : Option String
deriving Inhabited, Repr

/-! ## Rune-level models of the Go `strings` helpers used by the code -/

/-- `strings.Contains(s, sub)` at the rune level: `sub` occurs as a
contiguous segment of `s` (the empty `sub` is contained everywhere). -/
def goContainsL (sub : List Char) : List Char → Bool
  | [] => sub.isEmpty
  | c :: rest => sub.isPrefixOf (c :: rest) || goContainsL sub rest

/-- `strings.Contains` with Go's argument order, on `String`. -/
def goContains (s sub : String) : Bool :=
  goContainsL sub.toList s.toList

/-- `strings.TrimSpace` (both inputs in this code are ASCII, where Go's
`unicode.IsSpace` and `Char.isWhitespace` agree). -/
def goTrimSpace (s : List Char) : List Char :=
  ((s.dropWhile Char.isWhitespace).reverse.dropWhile Char.isWhitespace).reverse

/-- `strings.Split(s, "\n")`: the list of newline-separated segments;
on the empty string it yields one empty segment, like Go. -/
def goSplitLines : List Char → List (List Char)
  | [] => [[]]
  | c :: rest =>
    if c = '\n' then [] :: goSplitLines rest
    else
      match goSplitLines rest with
      | [] => [[c]]
      | l :: ls => (c :: l) :: ls

/-! ## Review-Rank Extractor (`parseRankings`, client.go lines 596-624) -/

/-- The label alphabet `labels := []string{"A", ..., "H"}` shared by
`buildReviewPrompt` (line 566) and `parseRankings` (line 602). -/
def labels : List String := ["A", "B", "C", "D", "E", "F", "G", "H"]

/-- The inner loop of `parseRankings` (lines 607-620) on one trimmed line:
walk the label alphabet with its index `i`, stop (`break`) as soon as
`i >= numResponses`, and return the index of the first label such that the
line contains `"Response "+label` together with the marker `"rank."` or
`"rank:"` of the currently sought rank. -/
def findLabel (line : List Char) (numResponses rank : Nat) :
    Nat → List String → Option Nat
  | _, [] => none
  | i, label :: rest =>
    if numResponses ≤ i then none
    else if goContainsL ("Response " ++ label).toList line &&
        (goContainsL (toString rank ++ ".").toList line ||
         goContainsL (toString rank ++ ":").toList line) then
      some i
    else findLabel line numResponses rank (i + 1) rest

/-- The outer loop of `parseRankings` (lines 604-621): scan the lines in
order; a line on which `findLabel` commits appends a `Ranking` whose
`Reasoning` is the trimmed line and advances the sought rank by one. -/
def parseRankingsAux (numResponses : Nat) : List (List Char) → Nat → List Ranking
  | [], _ => []
  | line :: rest, rank =>
    let l := goTrimSpace line
    match findLabel l numResponses rank 0 labels with
    | some i =>
      { ResponseIndex := i, Rank := rank, Reasoning := ⟨l⟩ } ::
        parseRankingsAux numResponses rest (rank + 1)
    | none => parseRankingsAux numResponses rest rank

/-- Go `(c *Council) parseRankings(reviewContent, numResponses)`
(client.go lines 596-624). -/
def parseRankings (reviewContent : String) (numResponses : Nat) : List Ranking :=
  parseRankingsAux numResponses (goSplitLines reviewContent.toList) 1

/-! ## Transport oracle

One call into the Copilot SDK, as performed by the bodies of
`AskMultipleModels` (client.go lines 87-158) and `AskSingleModel` (lines
166-209), has exactly four exits: session creation fails, `session.Send`
fails, the `done` channel fires with the collected content, or the per-call
deadline context fires first.  Which exit a given call takes, its content
and its elapsed time are environment data, abstracted as a `CallOutcome`. -/
inductive CallOutcome where
  | sessionError (msg : String) (d : Nat)
  | sendError (msg : String) (d : Nat)
  | completed (content : String) (d : Nat)
  | timeout (d : Nat)
deriving DecidableEq, Inhabited, Repr

/-- A `CallOutcome` other than `completed` is a failed call. -/
def CallOutcome.isFailure : CallOutcome → Bool
  | .completed _ _ => false
  | _ => true

/-- One goroutine body of `AskMultipleModels` (client.go lines 87-158): the
`Response` written into the slot of model `mdl` when its call takes outcome
`o`.  `CreateSession` wraps its error (line 63), a send failure wraps
"failed to send message" (line 135), a deadline produces "timeout waiting
for response" (line 150); on every failure path `resp.Content` keeps its
zero value `""`. -/
def askOne (mdl : String) (o : CallOutcome) : Response :=
  match o with
  | .sessionError msg d =>
    { Model := mdl, Content := "",
      Error := some ("failed to create session for model " ++ mdl ++ ": " ++ msg),
      Duration := d }
  | .sendError msg d =>
    { Model := mdl, Content := "", Error := some ("failed to send message: " ++ msg),
      Duration := d }
  | .completed content d =>
    { Model := mdl, Content := content, Error := none, Duration := d }
  | .timeout d =>
    { Model := mdl, Content := "", Error := some "timeout waiting for response",
      Duration := d }

/-- Go `(c *Client) AskSingleModel` (client.go lines 166-209): returns
`(content, elapsed, error)`; the same four exits as one fan-out goroutine. -/
def AskSingleModel (mdl question : String) (o : CallOutcome) :
    String × Nat × Option String :=
  match o with
  | .sessionError msg d =>
    ("", d, some ("failed to create session for model " ++ mdl ++ ": " ++ msg))
  | .sendError msg d => ("", d, some ("failed to send message: " ++ msg))
  | .completed content d => (content, d, none)
  | .timeout d => ("", d, some "timeout waiting for response")

/-! ## Fan-Out Executor (`AskMultipleModels`, client.go lines 81-163)

Each goroutine writes only `responses[idx]`, its own pre-allocated slot,
and `wg.Wait()` joins them all.  Concurrency is modelled by an explicit
completion schedule: `sched` lists the goroutine indices in the order their
slot writes land.  The join requires every spawned goroutine to have
completed, i.e. every index below `len(models)` to occur in `sched`. -/

/-- The slot writes of the fan-out goroutines, performed in schedule order
over the initially empty slot array (`none` = not yet written). -/
def runSchedule (models : List String) (env : Nat → CallOutcome) :
    List Nat → (Nat → Option Response) → Nat → Option Response
  | [], slots => slots
  | idx :: rest, slots =>
    runSchedule models env rest
      (fun j => if j = idx then some (askOne (models.getD idx "") (env idx)) else slots j)

/-- Go `(c *Client) AskMultipleModels` (client.go lines 81-163): spawn one
goroutine per model, wait, and return the slot array.  A slot never written
(impossible once the schedule covers every index) reads as the Go zero
`Response`. -/
def AskMultipleModels (models : List String) (question : String) (timeoutD : Nat)
    (env : Nat → CallOutcome) (sched : List Nat) : List Response :=
  (List.range models.length).map fun i =>
    (runSchedule models env sched (fun _ => none) i).getD
      { Model := "", Content := "", Error := none, Duration := 0 }

/-! ## Orchestrator helpers -/

/-- The success predicate used at client.go lines 451 and 498:
`resp.Error == nil && resp.Content != ""`. -/
def usable (r : Response) : Bool :=
  r.Error.isNone && !(r.Content == "")

/-- The filter loop of `conductPeerReview` (client.go lines 496-501):
the successful Stage-1 responses, in original order. -/
def successfulResponses (rs : List Response) : List Response :=
  rs.filter usable

/-- The counting loop of `Execute` (client.go lines 449-454). -/
def successCount (rs : List Response) : Nat :=
  (successfulResponses rs).length

/-- The anonymization loop of `conductPeerReview` (client.go lines 511-516):
keep every entry whose position `j` differs from the reviewer's index `i`,
in order.  The counter argument is `j`. -/
def anonLoop (i : Nat) : Nat → List Response → List Response
  | _, [] => []
  | j, r :: rest =>
    if i ≠ j then r :: anonLoop i (j + 1) rest else anonLoop i (j + 1) rest

/-- The anonymized view one reviewer sees: all successful responses except
the reviewer's own, at index `excludeIndex`. -/
def anonymize (rs : List Response) (excludeIndex : Nat) : List Response :=
  anonLoop excludeIndex 0 rs

/-- The label-assignment loop of `buildReviewPrompt` (client.go lines
566-573): entry number `k` (counter argument) is paired with `labels[k]`
when `k < len(labels)`, and silently dropped past the alphabet. -/
def labelLoop : Nat → List Response → List (String × Response)
  | _, [] => []
  | k, r :: rest =>
    if k < labels.length then (labels.getD k "", r) :: labelLoop (k + 1) rest
    else labelLoop (k + 1) rest

/-- The labelled view `buildReviewPrompt` renders: label `A` for the first
anonymized entry, `B` for the second, and so on. -/
def labeledView (anonymized : List Response) : List (String × Response) :=
  labelLoop 0 anonymized

/-- Go `(c *Council) buildReviewPrompt` (client.go lines 557-592). -/
def buildReviewPrompt (question : String) (anonymized : List Response) : String :=
  "You are an expert evaluator. Below are " ++ toString anonymized.length ++
    " different responses to the question: \"" ++ question ++ "\"\n\n" ++
    "The responses are anonymized (labeled Response A, Response B, etc.).\n\n" ++
    String.join ((labeledView anonymized).map fun p =>
      "## Response " ++ p.1 ++ ":\n" ++ p.2.Content ++ "\n\n") ++
    "Please evaluate these responses based on:\n" ++
    "1. Accuracy of information\n2. Depth of insight\n3. Practical usefulness\n" ++
    "4. Clarity and conciseness\n\n" ++
    "Rank the responses from best to worst (1 = best) and explain your reasoning for each.\n" ++
    "Format your response as:\n\nRanking:\n1. Response [X]: [brief reasoning]\n" ++
    "2. Response [Y]: [brief reasoning]\n...\n\n" ++
    "Be objective and focus on the quality of the content, not stylistic preferences."

/-- The response-listing loop of `buildAggregationPrompt` (client.go lines
637-646): response number `i+1` with its model name, the content on
success, an error marker on failure. -/
def aggResponseSections : Nat → List Response → String
  | _, [] => ""
  | i, r :: rest =>
    ("### Response " ++ toString (i + 1) ++ " - " ++ r.Model ++ ":\n" ++
      (match r.Error with
       | some msg => "(Error: " ++ msg ++ ")\n\n"
       | none => r.Content ++ "\n\n")) ++ aggResponseSections (i + 1) rest

/-- The peer-review section of `buildAggregationPrompt` (client.go lines
648-662): present only when reviews exist; inside it, only error-free
reviews with at least one parsed ranking are rendered. -/
def reviewResultsSection (reviews : List Review) : String :=
  if reviews.isEmpty then ""
  else
    "## Peer Review Results:\n\n" ++
      "Each model reviewed the others' responses. Here are their evaluations:\n\n" ++
      String.join (reviews.map fun rv =>
        if rv.Error.isNone && !rv.Rankings.isEmpty then
          "**" ++ rv.ReviewerModel ++ "'s Review:**\n" ++
            String.join (rv.Rankings.map fun rk => "- " ++ rk.Reasoning ++ "\n") ++ "\n"
        else "")

/-- Go `(c *Council) buildAggregationPrompt` (client.go lines 627-679). -/
def buildAggregationPrompt (originalQuestion : String) (responses : List Response)
    (reviews : List Review) : String :=
  "You are the Chairman of an AI Council. Multiple AI models have answered the following question, and then peer-reviewed each other's responses.\n\n" ++
    "Original Question: \"" ++ originalQuestion ++ "\"\n\n" ++
    "## Council Members' Responses:\n\n" ++
    aggResponseSections 0 responses ++
    reviewResultsSection reviews ++
    "## Your Task as Chairman:\n\n" ++
    "Based on the council members' responses AND their peer reviews:\n\n" ++
    "1. Synthesize the BEST answer to the original question\n" ++
    "2. Take a CLEAR, DECISIVE stance - avoid vague \"it depends\" answers\n" ++
    "3. If there are multiple valid approaches, CHOOSE the best one and explain why\n" ++
    "4. Provide ACTIONABLE recommendations\n" ++
    "5. Support your decision with the strongest evidence from the responses\n\n" ++
    "The council expects a definitive answer. Be confident in your conclusion.\n\n" ++
    "Your final answer:"

/-! ## Stage 2: peer review (`conductPeerReview`, client.go lines 492-554)

The reviewer loop awaits each `AskSingleModel` call before starting the
next one (plain sequential `for` loop, lines 509-551), so the stage's
wall-clock elapsed time — `result.ReviewDuration = time.Since(reviewStart)`
measured around the whole loop at lines 466-468 — is the sum of the call
durations.  The loop returns, alongside the reviews, that elapsed tick
count and the `(reviewer model, review prompt)` pairs stored into
`result.ReviewPrompts` (line 522), which also serve as the trace of the
single-model calls the stage makes, in order. -/

/-- The reviewer loop, iterating over `successfulResponses` with index `i`
(counter argument); the list argument is the remaining suffix, so the call
`reviewLoop q successful gwS 0 successful` walks every reviewer. -/
def reviewLoop (question : String) (successful : List Response)
    (gwS : String → String → CallOutcome) :
    Nat → List Response → List Review × Nat × List (String × String)
  | _, [] => ([], 0, [])
  | i, reviewer :: rest =>
    let anonymized := anonymize successful i
    let reviewPrompt := buildReviewPrompt question anonymized
    let res := AskSingleModel reviewer.Model reviewPrompt (gwS reviewer.Model reviewPrompt)
    let review : Review :=
      { ReviewerModel := reviewer.Model
        Rankings :=
          match res.2.2 with
          | none => parseRankings res.1 anonymized.length
          | some _ => []
        Duration := res.2.1
        Error := res.2.2 }
    let tailRes := reviewLoop question successful gwS (i + 1) rest
    (review :: tailRes.1, res.2.1 + tailRes.2.1,
      (reviewer.Model, reviewPrompt) :: tailRes.2.2)

/-- Go `(c *Council) conductPeerReview` (client.go lines 492-554), returning
`(reviews, stage elapsed ticks, review prompts / call trace)`.  Fewer than
two successful responses skip the stage (lines 503-506). -/
def conductPeerReview (question : String) (responses : List Response)
    (gwS : String → String → CallOutcome) :
    List Review × Nat × List (String × String) :=
  let successful := successfulResponses responses
  if successful.length < 2 then ([], 0, [])
  else reviewLoop question successful gwS 0 successful

/-! ## Pipeline Orchestrator (`Execute`, client.go lines 433-489) -/

/-- Go `(c *Council) Execute` (client.go lines 433-489).  `env`/`sched`
drive the Stage-1 fan-out, `gwS` maps each `(model, prompt)` single call to
its transport outcome.  Alongside the `Result`, the full trace of
`AskSingleModel` calls — Stage-2 reviews then the aggregator call — is
returned, so that "a stage never ran" is the statement that its calls are
absent from the trace. -/
def Execute (cfg : Config) (question : String) (env : Nat → CallOutcome)
    (sched : List Nat) (gwS : String → String → CallOutcome) :
    Result × List (String × String) :=
  let stage1 := AskMultipleModels cfg.Models question cfg.Timeout env sched
  if successCount stage1 = 0 then
    ({ ModelResponses := stage1, Reviews := [], AggregatedResponse := "",
       AggregationDuration := 0, ReviewDuration := 0, InitialPrompt := question,
       ReviewPrompts := [], AggregationPrompt := "",
       Error := some "all models failed to respond" }, [])
  else
    let pr := conductPeerReview question stage1 gwS
    let aggregationPrompt := buildAggregationPrompt question stage1 pr.1
    let res := AskSingleModel cfg.Aggregator aggregationPrompt
      (gwS cfg.Aggregator aggregationPrompt)
    match res.2.2 with
    | some e =>
      ({ ModelResponses := stage1, Reviews := pr.1, AggregatedResponse := "",
         AggregationDuration := 0, ReviewDuration := pr.2.1, InitialPrompt := question,
         ReviewPrompts := pr.2.2, AggregationPrompt := aggregationPrompt,
         Error := some ("aggregation failed: " ++ e) },
       pr.2.2 ++ [(cfg.Aggregator, aggregationPrompt)])
    | none =>
      ({ ModelResponses := stage1, Reviews := pr.1, AggregatedResponse := res.1,
         AggregationDuration := res.2.1, ReviewDuration := pr.2.1,
         InitialPrompt := question, ReviewPrompts := pr.2.2,
         AggregationPrompt := aggregationPrompt, Error := none },
       pr.2.2 ++ [(cfg.Aggregator, aggregationPrompt)])

/-- Modelled from the spec: under the spec's claimed "parallel
worker-per-participant execution within Stage 2" scheduling model, a
stage's observed wall time is that of its slowest call (spec sections 4.1
and 5), i.e. the maximum of the per-call durations. -/
def parallelStageElapsed (durations : List Nat) : Nat :=
  durations.foldr Nat.max 0

/-! ## Lemmas about the Review-Rank Extractor -/

/-- When the inner label loop commits label index `j`, starting from counter
`i`, then `j` lies between `i` and both bounds (`numResponses` for the
`break`, `i + |alphabet|` for running off the list), and the trimmed line
contains both the label text and a marker of the sought rank. -/
theorem findLabel_some :
    ∀ (ls : List String) (line : List Char) (n rank i j : Nat),
      findLabel line n rank i ls = some j →
      i ≤ j ∧ j < n ∧ j < i + ls.length ∧
      goContainsL ("Response " ++ ls.getD (j - i) "").toList line = true ∧
      (goContainsL (toString rank ++ ".").toList line = true ∨
       goContainsL (toString rank ++ ":").toList line = true) := by
  intro ls
  induction ls with
  | nil => intro line n rank i j h; simp [findLabel] at h
  | cons label rest ih =>
    intro line n rank i j h
    rw [findLabel] at h
    split at h
    · exact absurd h (by simp)
    · rename_i hni
      split at h
      · rename_i hc
        obtain rfl : i = j := by simpa using h
        rw [Bool.and_eq_true, Bool.or_eq_true] at hc
        refine ⟨Nat.le_refl i, Nat.lt_of_not_le hni,
          by simp only [List.length_cons]; omega, ?_, hc.2⟩
        simpa using hc.1
      · obtain ⟨h1, h2, h3, h4, h5⟩ := ih line n rank (i + 1) j h
        refine ⟨by omega, h2, by simp only [List.length_cons]; omega, ?_, h5⟩
        have hji : j - i = (j - (i + 1)) + 1 := by omega
        rw [hji] at *
        simpa using h4

/-- Every `Ranking` committed by the line scanner starting at sought rank
`r` carries a rank at least `r`, a response index inside both the eligible
count and the label alphabet, and a `Reasoning` line containing its
resolved label and its own rank marker. -/
theorem parseRankingsAux_mem :
    ∀ (lines : List (List Char)) (n r : Nat) (a : Ranking),
      a ∈ parseRankingsAux n lines r →
      r ≤ a.Rank ∧ a.ResponseIndex < n ∧ a.ResponseIndex < labels.length ∧
      goContainsL ("Response " ++ labels.getD a.ResponseIndex "").toList
        a.Reasoning.toList = true ∧
      (goContainsL (toString a.Rank ++ ".").toList a.Reasoning.toList = true ∨
       goContainsL (toString a.Rank ++ ":").toList a.Reasoning.toList = true) := by
  intro lines
  induction lines with
  | nil => intro n r a h; simp [parseRankingsAux] at h
  | cons line rest ih =>
    intro n r a h
    rw [parseRankingsAux] at h
    revert h
    cases hf : findLabel (goTrimSpace line) n r 0 labels with
    | none =>
      intro h
      obtain ⟨h1, h2⟩ := ih n r a h
      exact ⟨h1, h2⟩
    | some i =>
      intro h
      rcases List.mem_cons.mp h with rfl | hmem
      · obtain ⟨-, h2, h3, h4, h5⟩ := findLabel_some labels (goTrimSpace line) n r 0 i hf
        simp only [Nat.sub_zero] at h4
        exact ⟨Nat.le_refl _, h2, by simpa using h3, h4, h5⟩
      · obtain ⟨h1, h2⟩ := ih n (r + 1) a hmem
        exact ⟨by omega, h2⟩

/-- The ranks committed by the line scanner starting at sought rank `r` are
exactly `r, r+1, …` in list order: each commit advances the sought rank by
one. -/
theorem parseRankingsAux_map_rank :
    ∀ (lines : List (List Char)) (n r : Nat),
      (parseRankingsAux n lines r).map Ranking.Rank =
        List.range' r (parseRankingsAux n lines r).length := by
  intro lines
  induction lines with
  | nil => intro n r; simp [parseRankingsAux]
  | cons line rest ih =>
    intro n r
    rw [parseRankingsAux]
    cases hf : findLabel (goTrimSpace line) n r 0 labels with
    | none => exact ih n r
    | some i => simp [ih n (r + 1), List.range'_succ]

/-- C7: the Review-Rank Extractor, applied to the literal review text
`"Ranking:\n1. Response B: clear and correct\n2. Response A: verbose"` with
two eligible labels, returns exactly label B (response index 1) at rank 1
followed by label A (response index 0) at rank 2; applied to the
unparseable text `"I liked them both"` it returns the empty list. -/
theorem parseRankings_literal_examples :
    parseRankings "Ranking:\n1. Response B: clear and correct\n2. Response A: verbose" 2 =
      [{ ResponseIndex := 1, Rank := 1, Reasoning := "1. Response B: clear and correct" },
       { ResponseIndex := 0, Rank := 2, Reasoning := "2. Response A: verbose" }] ∧
    parseRankings "I liked them both" 2 = [] := by
  constructor
  · decide
  · decide

/-- C1 counterexample: on the review text
`"1. Response A: x\n2. Response A: y"` with two eligible labels the parser
claims label A (response index 0) twice, at ranks 1 and 2 — the returned
list does contain two assertions resolving to the same label, because the
code never records which labels are already claimed. -/
theorem parseRankings_claims_label_twice :
    parseRankings "1. Response A: x\n2. Response A: y" 2 =
      [{ ResponseIndex := 0, Rank := 1, Reasoning := "1. Response A: x" },
       { ResponseIndex := 0, Rank := 2, Reasoning := "2. Response A: y" }] ∧
    ¬ List.Pairwise (fun a b => a.ResponseIndex ≠ b.ResponseIndex)
        (parseRankings "1. Response A: x\n2. Response A: y" 2) := by
  constructor
  · decide
  · decide

/-- C1 (amended): a label may be claimed at more than one rank, but no two
assertions share a rank — the ranks strictly increase in list order because
the first line matching the currently sought rank for any eligible label
(claimed or not) commits the assertion and advances the sought rank — and
every committed assertion's line contains the resolved label's text
together with the marker (`N.` or `N:`) of the rank it was committed at. -/
theorem parseRankings_ranks_increasing_and_sound (t : String) (n : Nat) :
    List.Pairwise (fun a b => a.Rank < b.Rank) (parseRankings t n) ∧
    (parseRankings t n).all (fun a =>
      goContainsL ("Response " ++ labels.getD a.ResponseIndex "").toList
          a.Reasoning.toList &&
        (goContainsL (toString a.Rank ++ ".").toList a.Reasoning.toList ||
         goContainsL (toString a.Rank ++ ":").toList a.Reasoning.toList)) = true := by
  constructor
  · have h := parseRankingsAux_map_rank (goSplitLines t.toList) n 1
    have hp : List.Pairwise (· < ·) ((parseRankings t n).map Ranking.Rank) := by
      rw [parseRankings] at *
      rw [h]
      exact List.pairwise_lt_range' _ _
    exact (List.pairwise_map).mp hp
  · rw [List.all_eq_true]
    intro a ha
    obtain ⟨-, -, -, h4, h5⟩ :=
      parseRankingsAux_mem (goSplitLines t.toList) n 1 a ha
    rw [Bool.and_eq_true, Bool.or_eq_true]
    exact ⟨h4, h5⟩

/-- C9: the ranks in the returned list are exactly `1, 2, …, k` in list
order, and every response index is below both the eligible count and the
size 8 of the label alphabet. -/
theorem parseRankings_rank_sequence_and_index_bound (t : String) (n : Nat) :
    (parseRankings t n).map Ranking.Rank =
      List.range' 1 (parseRankings t n).length ∧
    (parseRankings t n).all (fun a => a.ResponseIndex < min n 8) = true := by
  refine ⟨parseRankingsAux_map_rank (goSplitLines t.toList) n 1, ?_⟩
  rw [List.all_eq_true]
  intro a ha
  obtain ⟨-, h2, h3, -⟩ := parseRankingsAux_mem (goSplitLines t.toList) n 1 a ha
  simpa using Nat.lt_min.mpr ⟨h2, by simpa [labels] using h3⟩

/-! ## Lemmas about the Anonymizer -/

/-- Past the excluded index, the anonymization loop keeps everything. -/
theorem anonLoop_of_lt :
    ∀ (rs : List Response) (i j : Nat), i < j → anonLoop i j rs = rs := by
  intro rs
  induction rs with
  | nil => intro i j _; rfl
  | cons r rest ih =>
    intro i j hij
    rw [anonLoop, if_pos (by omega)]
    rw [ih i (j + 1) (by omega)]

/-- Shifting both the excluded index and the loop counter by one leaves the
kept entries unchanged. -/
theorem anonLoop_shift :
    ∀ (rs : List Response) (i j : Nat),
      anonLoop (i + 1) (j + 1) rs = anonLoop i j rs := by
  intro rs
  induction rs with
  | nil => intro i j; rfl
  | cons r rest ih =>
    intro i j
    rw [anonLoop, anonLoop]
    by_cases hij : i = j
    · rw [if_neg (by omega), if_neg (by omega), ih]
    · rw [if_pos (by omega), if_pos (by omega), ih]

/-- The anonymized view is the input with exactly the entry at the excluded
index removed, the rest in their original relative order. -/
theorem anonymize_eq_take_drop :
    ∀ (rs : List Response) (i : Nat),
      anonymize rs i = rs.take i ++ rs.drop (i + 1) := by
  intro rs
  induction rs with
  | nil => intro i; simp [anonymize, anonLoop]
  | cons r rest ih =>
    intro i
    cases i with
    | zero =>
      rw [anonymize, anonLoop, if_neg (by omega)]
      rw [anonLoop_of_lt rest 0 1 (by omega)]
      simp
    | succ i' =>
      rw [anonymize, anonLoop, if_pos (by omega)]
      have h0 : anonLoop (i' + 1) (0 + 1) rest = anonLoop i' 0 rest :=
        anonLoop_shift rest i' 0
      simp only [Nat.zero_add] at h0
      rw [h0]
      rw [show anonLoop i' 0 rest = anonymize rest i' from rfl, ih i']
      simp

/-- The label loop started at counter `k` pairs the remaining entries with
the labels past position `k`, in order. -/
theorem labelLoop_eq_zip :
    ∀ (rs : List Response) (k : Nat),
      labelLoop k rs = (labels.drop k).zip rs := by
  intro rs
  induction rs with
  | nil => intro k; simp [labelLoop]
  | cons r rest ih =>
    intro k
    rw [labelLoop]
    by_cases hk : k < labels.length
    · rw [if_pos hk, ih]
      rw [List.drop_eq_getElem_cons hk, List.zip_cons_cons]
      congr 1
      · congr 1
        exact List.getD_eq_getElem labels "" hk
    · rw [if_neg hk, ih]
      rw [List.drop_eq_nil_of_le (by omega), List.drop_eq_nil_of_le (by omega)]
      simp

/-- C6: the anonymized view a reviewer at `excludeIndex` sees omits exactly
the reviewer's own entry and keeps the others in their original relative
order; the review prompt pairs the remaining entries with the sequential
labels `A, B, C, …` positionally; in particular, for three successful
responses with the middle one excluded, the labels are `A` for the first
input and `B` for the third. -/
theorem anonymize_excludes_reviewer_and_labels_sequential
    (rs : List Response) (i : Nat) (r0 r1 r2 : Response) :
    anonymize rs i = rs.take i ++ rs.drop (i + 1) ∧
    labeledView (anonymize rs i) = labels.zip (anonymize rs i) ∧
    labeledView (anonymize [r0, r1, r2] 1) = [("A", r0), ("B", r2)] := by
  refine ⟨anonymize_eq_take_drop rs i, labelLoop_eq_zip (anonymize rs i) 0, ?_⟩
  rw [anonymize_eq_take_drop [r0, r1, r2] 1]
  rfl

/-! ## Lemmas about the Fan-Out Executor -/

/-- After the scheduled slot writes, a slot holds its goroutine's response
exactly when its index was scheduled; the write order is irrelevant because
goroutine `idx` writes only slot `idx`, always with the same value. -/
theorem runSchedule_apply (models : List String) (env : Nat → CallOutcome) :
    ∀ (sched : List Nat) (slots : Nat → Option Response) (j : Nat),
      runSchedule models env sched slots j =
        if j ∈ sched then some (askOne (models.getD j "") (env j)) else slots j := by
  intro sched
  induction sched with
  | nil => intro slots j; simp [runSchedule]
  | cons idx rest ih =>
    intro slots j
    rw [runSchedule, ih]
    by_cases hjr : j ∈ rest
    · simp [hjr]
    · by_cases hji : j = idx
      · subst hji
        simp [hjr]
      · simp [hjr, hji]

/-- C5: for every non-empty participant list and every completion schedule
that completes each spawned goroutine, the fan-out returns exactly one
`Response` per input model — slot `i` holding precisely the outcome of
participant `i`'s own call, independent of the completion order — and a
call whose outcome is a failure (session error, send error, or deadline)
yields a `Response` recording the failure with empty content rather than
raising. -/
theorem askMultipleModels_slot_per_participant
    (models : List String) (question : String) (timeoutD : Nat)
    (env : Nat → CallOutcome) (sched : List Nat)
    (hne : models ≠ [])
    (hcov : ∀ i, i < models.length → i ∈ sched) :
    (AskMultipleModels models question timeoutD env sched).length = models.length ∧
    (∀ i, i < models.length →
      (AskMultipleModels models question timeoutD env sched).get? i =
        some (askOne (models.getD i "") (env i))) ∧
    (∀ i, i < models.length → (env i).isFailure = true →
      ∃ r, (AskMultipleModels models question timeoutD env sched).get? i = some r ∧
        r.Model = models.getD i "" ∧ r.Error.isSome = true ∧ r.Content = "") := by
  have hget : ∀ i, i < models.length →
      (AskMultipleModels models question timeoutD env sched).get? i =
        some (askOne (models.getD i "") (env i)) := by
    intro i hi
    rw [AskMultipleModels, List.get?_map, List.get?_range hi]
    simp only [Option.map_some']
    rw [runSchedule_apply, if_pos (hcov i hi)]
    rfl
  refine ⟨by simp [AskMultipleModels], hget, ?_⟩
  intro i hi hfail
  refine ⟨askOne (models.getD i "") (env i), hget i hi, ?_⟩
  cases henv : env i with
  | sessionError msg d => simp [askOne]
  | sendError msg d => simp [askOne]
  | completed content d => rw [henv] at hfail; simp [CallOutcome.isFailure] at hfail
  | timeout d => simp [askOne]

/-- C5 witness: a two-participant run whose completion schedule is the
reverse of the input order still fills slot 0 with participant 0's outcome
and slot 1 with participant 1's (failed) outcome. -/
theorem askMultipleModels_slot_per_participant_witness :
    ((["m1", "m2"] : List String) ≠ [] ∧ (∀ i, i < 2 → i ∈ [1, 0])) ∧
    (AskMultipleModels ["m1", "m2"] "q" 60
      (fun i => if i = 0 then CallOutcome.completed "a" 1 else CallOutcome.timeout 2)
      [1, 0]).length = 2 := by
  refine ⟨⟨by decide, by decide⟩, ?_⟩
  have h := askMultipleModels_slot_per_participant ["m1", "m2"] "q" 60
    (fun i => if i = 0 then CallOutcome.completed "a" 1 else CallOutcome.timeout 2)
    [1, 0] (by decide) (by decide)
  simpa using h.1

/-! ## Lemmas about the Pipeline Orchestrator -/

/-- The sequential reviewer loop's elapsed time is the sum of the durations
of the reviews it produced: each `AskSingleModel` call is awaited before
the next begins. -/
theorem reviewLoop_elapsed_eq_sum (question : String) (successful : List Response)
    (gwS : String → String → CallOutcome) :
    ∀ (rest : List Response) (i : Nat),
      (reviewLoop question successful gwS i rest).2.1 =
        ((reviewLoop question successful gwS i rest).1.map Review.Duration).sum := by
  intro rest
  induction rest with
  | nil => intro i; simp [reviewLoop]
  | cons reviewer tl ih =>
    intro i
    rw [reviewLoop]
    simp only [List.map_cons, List.sum_cons]
    rw [ih (i + 1)]

/-- C8 (amended): the Stage-2 peer-review stage executes its reviewer calls
sequentially — its elapsed time is the sum of the individual review call
durations, not the wall time of the slowest call that concurrent
worker-per-participant execution would give. -/
theorem conductPeerReview_elapsed_is_sum (question : String)
    (responses : List Response) (gwS : String → String → CallOutcome) :
    (conductPeerReview question responses gwS).2.1 =
      ((conductPeerReview question responses gwS).1.map Review.Duration).sum := by
  rw [conductPeerReview]
  split
  · rfl
  · exact reviewLoop_elapsed_eq_sum question (successfulResponses responses) gwS
      (successfulResponses responses) 0

/-- C8 counterexample: a concrete two-participant run in which the two
review calls take 3 and 5 ticks.  The pipeline's `ReviewDuration` is their
sum 8, not the slowest-call wall time 5 that the claimed concurrent
execution of the reviewer calls would produce. -/
theorem review_stage_not_concurrent :
    (Execute ⟨["m1", "m2"], "agg", 60, false, "q"⟩ "q"
      (fun i => CallOutcome.completed ("a" ++ toString i) 1) [0, 1]
      (fun m _ => if m == "m1" then CallOutcome.completed "r1" 3
        else if m == "m2" then CallOutcome.completed "r2" 5
        else CallOutcome.completed "fin" 7)).1.Reviews.map Review.Duration =
      [3, 5] ∧
    (Execute ⟨["m1", "m2"], "agg", 60, false, "q"⟩ "q"
      (fun i => CallOutcome.completed ("a" ++ toString i) 1) [0, 1]
      (fun m _ => if m == "m1" then CallOutcome.completed "r1" 3
        else if m == "m2" then CallOutcome.completed "r2" 5
        else CallOutcome.completed "fin" 7)).1.ReviewDuration = 8 ∧
    parallelStageElapsed [3, 5] = 5 ∧ (8 : Nat) ≠ 5 := by
  refine ⟨by decide, by decide, by decide, by decide⟩

/-- C2: when no Stage-1 participant produced a usable (non-failed,
non-empty) response, `Execute` returns the terminal all-failed error with
no reviews, no aggregated text, zero review time, and an empty single-call
trace: neither the peer-review stage nor the aggregation stage makes any
call. -/
theorem execute_all_failed (cfg : Config) (question : String)
    (env : Nat → CallOutcome) (sched : List Nat)
    (gwS : String → String → CallOutcome)
    (h : successCount (AskMultipleModels cfg.Models question cfg.Timeout env sched) = 0) :
    (Execute cfg question env sched gwS).1.Error = some "all models failed to respond" ∧
    (Execute cfg question env sched gwS).1.Reviews = [] ∧
    (Execute cfg question env sched gwS).1.AggregatedResponse = "" ∧
    (Execute cfg question env sched gwS).1.ReviewDuration = 0 ∧
    (Execute cfg question env sched gwS).2 = [] := by
  rw [Execute]
  simp only [h]
  exact ⟨rfl, rfl, rfl, rfl, rfl⟩

/-- C2 witness: one participant whose call hits its deadline. -/
theorem execute_all_failed_witness :
    successCount (AskMultipleModels ["m"] "q" 60 (fun _ => CallOutcome.timeout 5) [0]) = 0 ∧
    (Execute ⟨["m"], "agg", 60, false, "q"⟩ "q" (fun _ => CallOutcome.timeout 5) [0]
      (fun _ _ => CallOutcome.completed "x" 1)).1.Error =
        some "all models failed to respond" :=
  ⟨by decide,
    (execute_all_failed ⟨["m"], "agg", 60, false, "q"⟩ "q"
      (fun _ => CallOutcome.timeout 5) [0]
      (fun _ _ => CallOutcome.completed "x" 1) (by decide)).1⟩

/-- C3: when exactly one Stage-1 participant succeeded, the peer-review
stage is a no-op — no reviews, zero elapsed review time, no review call in
the trace — and Stage 3 still runs: the single-call trace is exactly the
one aggregator call, whose prompt is built from the Stage-1 responses and
the empty review list. -/
theorem execute_single_success_skips_review (cfg : Config) (question : String)
    (env : Nat → CallOutcome) (sched : List Nat)
    (gwS : String → String → CallOutcome)
    (h : successCount (AskMultipleModels cfg.Models question cfg.Timeout env sched) = 1) :
    (Execute cfg question env sched gwS).1.Reviews = [] ∧
    (Execute cfg question env sched gwS).1.ReviewDuration = 0 ∧
    (Execute cfg question env sched gwS).2 =
      [(cfg.Aggregator, buildAggregationPrompt question
        (AskMultipleModels cfg.Models question cfg.Timeout env sched) [])] := by
  have hskip : conductPeerReview question
      (AskMultipleModels cfg.Models question cfg.Timeout env sched) gwS = ([], 0, []) := by
    rw [conductPeerReview, if_pos]
    show successCount (AskMultipleModels cfg.Models question cfg.Timeout env sched) < 2
    omega
  rw [Execute]
  simp only [h, hskip]
  rw [if_neg (by omega : ¬ (1 : Nat) = 0)]
  split
  · exact ⟨rfl, rfl, rfl⟩
  · exact ⟨rfl, rfl, rfl⟩

/-- C3 witness: two participants of which only the first succeeds; the
pipeline makes exactly one single-model call, to the aggregator. -/
theorem execute_single_success_skips_review_witness :
    successCount (AskMultipleModels ["m1", "m2"] "q" 60
      (fun i => if i = 0 then CallOutcome.completed "a0" 1 else CallOutcome.timeout 2)
      [1, 0]) = 1 ∧
    ((Execute ⟨["m1", "m2"], "agg", 60, false, "q"⟩ "q"
      (fun i => if i = 0 then CallOutcome.completed "a0" 1 else CallOutcome.timeout 2)
      [1, 0] (fun _ _ => CallOutcome.completed "fin" 3)).2.map Prod.fst) = ["agg"] := by
  refine ⟨by decide, ?_⟩
  have h := execute_single_success_skips_review ⟨["m1", "m2"], "agg", 60, false, "q"⟩ "q"
    (fun i => if i = 0 then CallOutcome.completed "a0" 1 else CallOutcome.timeout 2)
    [1, 0] (fun _ _ => CallOutcome.completed "fin" 3) (by decide)
  rw [h.2.2]
  rfl

/-- C4: whenever the Stage-3 aggregator call fails (errors or hits its
deadline, i.e. `AskSingleModel` returns some error), `Execute` returns a
terminal `aggregation failed` error with no synthesized answer text, while
the Stage-1 responses and the Stage-2 reviews already collected remain
present in the `Result`. -/
theorem execute_aggregation_failure_keeps_data (cfg : Config) (question : String)
    (env : Nat → CallOutcome) (sched : List Nat)
    (gwS : String → String → CallOutcome) (e : String)
    (h1 : successCount (AskMultipleModels cfg.Models question cfg.Timeout env sched) ≠ 0)
    (h2 : (AskSingleModel cfg.Aggregator
        (buildAggregationPrompt question
          (AskMultipleModels cfg.Models question cfg.Timeout env sched)
          (conductPeerReview question
            (AskMultipleModels cfg.Models question cfg.Timeout env sched) gwS).1)
        (gwS cfg.Aggregator
          (buildAggregationPrompt question
            (AskMultipleModels cfg.Models question cfg.Timeout env sched)
            (conductPeerReview question
              (AskMultipleModels cfg.Models question cfg.Timeout env sched) gwS).1))).2.2 =
      some e) :
    (Execute cfg question env sched gwS).1.Error = some ("aggregation failed: " ++ e) ∧
    (Execute cfg question env sched gwS).1.AggregatedResponse = "" ∧
    (Execute cfg question env sched gwS).1.ModelResponses =
      AskMultipleModels cfg.Models question cfg.Timeout env sched ∧
    (Execute cfg question env sched gwS).1.Reviews =
      (conductPeerReview question
        (AskMultipleModels cfg.Models question cfg.Timeout env sched) gwS).1 := by
  rw [Execute]
  simp only []
  rw [if_neg h1]
  simp only [h2]
  simp

/-- C4 witness: a single successful participant and an aggregator that hits
its deadline. -/
theorem execute_aggregation_failure_keeps_data_witness :
    successCount (AskMultipleModels ["m"] "q" 60
        (fun _ => CallOutcome.completed "a" 1) [0]) ≠ 0 ∧
    (Execute ⟨["m"], "agg", 60, false, "q"⟩ "q"
      (fun _ => CallOutcome.completed "a" 1) [0]
      (fun m _ => if m == "agg" then CallOutcome.timeout 9
        else CallOutcome.completed "r" 1)).1.Error =
      some ("aggregation failed: " ++ "timeout waiting for response") := by
  refine ⟨by decide, ?_⟩
  exact (execute_aggregation_failure_keeps_data ⟨["m"], "agg", 60, false, "q"⟩ "q"
    (fun _ => CallOutcome.completed "a" 1) [0]
    (fun m _ => if m == "agg" then CallOutcome.timeout 9
      else CallOutcome.completed "r" 1)
    "timeout waiting for response" (by decide) (by decide)).1

/-- C10: when the Stage-3 aggregator call completes without error but with
empty text, `Execute` returns success — `Error` is `nil` — with an empty
`AggregatedResponse` and the aggregator call's duration recorded: an empty
synthesis is not treated as an aggregation failure. -/
theorem execute_empty_aggregation_is_success (cfg : Config) (question : String)
    (env : Nat → CallOutcome) (sched : List Nat)
    (gwS : String → String → CallOutcome) (d : Nat)
    (h1 : successCount (AskMultipleModels cfg.Models question cfg.Timeout env sched) ≠ 0)
    (h2 : gwS cfg.Aggregator
        (buildAggregationPrompt question
          (AskMultipleModels cfg.Models question cfg.Timeout env sched)
          (conductPeerReview question
            (AskMultipleModels cfg.Models question cfg.Timeout env sched) gwS).1) =
      CallOutcome.completed "" d) :
    (Execute cfg question env sched gwS).1.Error = none ∧
    (Execute cfg question env sched gwS).1.AggregatedResponse = "" ∧
    (Execute cfg question env sched gwS).1.AggregationDuration = d := by
  rw [Execute]
  simp only []
  rw [if_neg h1]
  rw [h2]
  exact ⟨rfl, rfl, rfl⟩

/-- C10 witness: a single successful participant and an aggregator that
completes with empty text after 4 ticks. -/
theorem execute_empty_aggregation_is_success_witness :
    successCount (AskMultipleModels ["m"] "q" 60
        (fun _ => CallOutcome.completed "a" 1) [0]) ≠ 0 ∧
    ((Execute ⟨["m"], "agg", 60, false, "q"⟩ "q"
      (fun _ => CallOutcome.completed "a" 1) [0]
      (fun m _ => if m == "agg" then CallOutcome.completed "" 4
        else CallOutcome.completed "r" 1)).1.Error = none ∧
    (Execute ⟨["m"], "agg", 60, false, "q"⟩ "q"
      (fun _ => CallOutcome.completed "a" 1) [0]
      (fun m _ => if m == "agg" then CallOutcome.completed "" 4
        else CallOutcome.completed "r" 1)).1.AggregatedResponse = "") := by
  refine ⟨by decide, ?_⟩
  have h := execute_empty_aggregation_is_success ⟨["m"], "agg", 60, false, "q"⟩ "q"
    (fun _ => CallOutcome.completed "a" 1) [0]
    (fun m _ => if m == "agg" then CallOutcome.completed "" 4
      else CallOutcome.completed "r" 1) 4 (by decide) (by rfl)
  exact ⟨h.1, h.2.1⟩

end CopilotCouncil
